import Mathlib

/-!
Verification of the WCDB incremental table-migration core.

This file gives a shallow embedding, in Lean 4, of the two source files of the
repository:

* `src/apple/objc/core/migration/MigrateHandle.cpp` — the migration stepper
  (`reAttach` / `attach` / `detach` / `dropSourceTable` / `migrateRows` /
  `migrateRow` / `addSample` / `calculateTimeIntervalWithinTransaction`), and
* `src/apple/objc/core/sqlite/Global.cpp` — the engine-wide notification hub
  (`setNotificationForLog` / `postLogNotification` /
  `setNotificationForLockEvent` / `postWillLockNotification` and friends).

Modelling decisions, used throughout:

* `double` durations are modelled as exact rationals (`ℚ`).  In `ℚ` a division
  by zero evaluates to `0`; the C++ `0.0/0.0 = NaN` case of
  `calculateTimeIntervalWithinTransaction` is caught by the same fallback
  branch (`t ≤ 0` here, `std::isnan` there), so both models return the
  initialisation budget on that path.
* The steady clock is modelled as a trace `clock : ℕ → ℚ`: the i-th call to
  `SteadyClock::now()` inside one `migrateRows` call returns `clock i`.
  Monotonicity of the clock is an explicit hypothesis
  (`StrictMono clock`) where a theorem needs it.
* Engine outcomes that are external to the excerpted code (does a statement
  execute successfully, does the destination table exist, how many rows remain
  in the source table) are supplied by explicit oracle fields in environment
  structures, one Boolean per fallible primitive, exactly at the places the
  C++ code branches on such an outcome.
* Callbacks stored in the notification hub are opaque to the hub; they are
  modelled as identifiers of type `ℕ`.  A dispatcher is modelled by the list
  of (subscriber name, callback) pairs it invokes, in map-iteration order.
-/

namespace WCDB

/-- A schema of a database connection: the distinguished `main` schema, or a
user schema attached under `name` for the database file at `path`.
Modelled from the spec: the `Syntax::Schema` type of the repository is not
part of the excerpted source; per the spec's data model, a non-main schema
identifier refers to an attached database path and a schema name. -/
inductive Schema where
  | main : Schema
  | named (path : String) (name : String) : Schema
deriving DecidableEq, Repr

/-- `Syntax::Schema::isMain`. -/
def Schema.isMain : Schema → Bool
  | .main => true
  | .named _ _ => false

/-- Modelled from the spec: `Syntax::Schema::isTargetingSameSchema` is not in
the excerpted source; per the spec, two schemas are targeting the same schema
iff they refer to the same attached database path and use the same schema
name (and `main` only targets `main`). -/
def isTargetingSameSchema (a b : Schema) : Bool :=
  decide (a = b)

/-- `MigrationInfo`: immutable descriptor of one table migration
(destination table, source database path, source schema name, source table).
The SQL-statement generators are opaque to the stepper and are not modelled. -/
structure MigrationInfo where
  table : String
  sourceDatabase : String
  sourceSchemaName : String
  sourceTable : String
deriving DecidableEq, Repr

/-- `MigrationBaseInfo::getSchemaForSourceDatabase`:  the schema under which
`sourceDatabase` is attached.  Modelled from the spec: the generator is not in
the excerpted source; it pairs the source database path with the source
schema name. -/
def MigrationInfo.getSchemaForSourceDatabase (info : MigrationInfo) : Schema :=
  Schema.named info.sourceDatabase info.sourceSchemaName

/-- One entry of the duration sampler: `MigrateHandle::Sample`
(both fields are seconds). -/
structure Sample where
  timeIntervalWithinTransaction : ℚ
  timeIntervalWholeTransaction : ℚ
deriving DecidableEq, Repr

/-- `MigrateHandle::Sample::Sample()`: zero-initialised. -/
def Sample.zero : Sample := ⟨0, 0⟩

/-- `MigrateHandle::numberOfSamples`.  Modelled from the spec: the constant
lives in the class header, which is not part of the excerpted source; the
spec calls it a small compile-time constant ("source uses a handful"). -/
def numberOfSamples : ℕ := 10

/-- `MigrateMaxExpectingDuration` (seconds).  Modelled from the spec: the
constant lives in `CoreConst.h`, which is not part of the excerpted source;
the spec only requires a positive ceiling. -/
def MigrateMaxExpectingDuration : ℚ := 1 / 100

/-- `MigrateMaxInitializeDuration` (seconds), the initialisation budget `B0`.
Modelled from the spec: the constant lives in `CoreConst.h`, which is not part
of the excerpted source; the spec calls it "a small constant, e.g. a few
milliseconds". -/
def MigrateMaxInitializeDuration : ℚ := 5 / 1000

/-- The mutable state of a `MigrateHandle`:
`m_migratingInfo`, `m_attached`, the prepared-flags of `m_migrateStatement`
and `m_removeMigratedStatement`, `m_samples` and `m_samplePointing`. -/
structure MigrateHandleState where
  migratingInfo : Option MigrationInfo
  attached : Schema
  migratePrepared : Bool
  removeMigratedPrepared : Bool
  samples : List Sample
  samplePointing : ℕ
deriving DecidableEq, Repr

/-- `MigrateHandle::MigrateHandle()`: no info, `main` attached, statements not
prepared, samples zero-initialised, cursor at 0. -/
def MigrateHandleState.initial : MigrateHandleState :=
  { migratingInfo := none
    attached := Schema.main
    migratePrepared := false
    removeMigratedPrepared := false
    samples := List.replicate numberOfSamples Sample.zero
    samplePointing := 0 }

/-- The validity filter of `MigrateHandle::calculateTimeIntervalWithinTransaction`:
a sample participates iff both of its fields are positive. -/
def isValidSample (s : Sample) : Bool :=
  decide (0 < s.timeIntervalWithinTransaction)
    && decide (0 < s.timeIntervalWholeTransaction)

/-- `MigrateHandle::calculateTimeIntervalWithinTransaction`: sum the two
fields over the valid samples, scale `MigrateMaxExpectingDuration` by their
ratio, and fall back to `MigrateMaxInitializeDuration` when the result is out
of range.  In `ℚ`, division by zero yields 0, so the all-invalid case
(`0 * MigrateMaxExpectingDuration / 0`, a NaN in the C++ doubles) lands in
the `t ≤ 0` fallback branch, exactly as `std::isnan` sends it to the fallback
in the source. -/
def calculateTimeIntervalWithinTransaction (samples : List Sample) : ℚ :=
  let valid := samples.filter isValidSample
  let totalTimeIntervalWithinTransaction :=
    (valid.map Sample.timeIntervalWithinTransaction).sum
  let totalTimeIntervalWholeTransaction :=
    (valid.map Sample.timeIntervalWholeTransaction).sum
  let timeIntervalWithinTransaction :=
    MigrateMaxExpectingDuration * totalTimeIntervalWithinTransaction
      / totalTimeIntervalWholeTransaction
  if MigrateMaxExpectingDuration < timeIntervalWithinTransaction
      ∨ timeIntervalWithinTransaction ≤ 0 then
    MigrateMaxInitializeDuration
  else
    timeIntervalWithinTransaction

/-- The next-budget computation as the spec words it (§4.4
`next_budget_seconds`): if there is no valid sample or the whole-transaction
sum is zero, return the initialisation budget; otherwise scale and guard.
This definition follows the spec's words and is compared against
`calculateTimeIntervalWithinTransaction`, which follows the source. -/
def nextBudgetSecondsSpec (samples : List Sample) : ℚ :=
  let valid := samples.filter isValidSample
  let sumIn := (valid.map Sample.timeIntervalWithinTransaction).sum
  let sumWhole := (valid.map Sample.timeIntervalWholeTransaction).sum
  if valid = [] ∨ sumWhole = 0 then
    MigrateMaxInitializeDuration
  else
    let b := MigrateMaxExpectingDuration * sumIn / sumWhole
    if MigrateMaxExpectingDuration < b ∨ b ≤ 0 then
      MigrateMaxInitializeDuration
    else
      b

/-- `MigrateHandle::addSample`: overwrite the ring slot at `m_samplePointing`
and advance the cursor, wrapping at `numberOfSamples`. -/
def MigrateHandleState.addSample (st : MigrateHandleState)
    (timeIntervalWithinTransaction timeIntervalForWholeTransaction : ℚ) :
    MigrateHandleState :=
  { st with
    samples := st.samples.set st.samplePointing
      ⟨timeIntervalWithinTransaction, timeIntervalForWholeTransaction⟩
    samplePointing :=
      if numberOfSamples ≤ st.samplePointing + 1 then 0
      else st.samplePointing + 1 }

/-- `MigrateHandle::finalizeMigrationStatement`: finalize both cached
prepared statements. -/
def MigrateHandleState.finalizeMigrationStatement (st : MigrateHandleState) :
    MigrateHandleState :=
  { st with migratePrepared := false, removeMigratedPrepared := false }

/-- Result of `MigrateHandle::attach` or `MigrateHandle::detach`:
the new handle state, the success flag, and whether an ATTACH/DETACH
statement was actually executed against the engine. -/
structure AttachStepResult where
  state : MigrateHandleState
  succeed : Bool
  executed : Bool
deriving DecidableEq, Repr

/-- `MigrateHandle::detach`: execute DETACH only when a non-main schema is
attached; update `m_attached` only on success.  `detachOk` is the engine
oracle for the DETACH statement. -/
def MigrateHandleState.detach (st : MigrateHandleState) (detachOk : Bool) :
    AttachStepResult :=
  if st.attached.isMain then ⟨st, true, false⟩
  else if detachOk then ⟨{ st with attached := Schema.main }, true, true⟩
  else ⟨st, false, true⟩

/-- `MigrateHandle::attach`: execute ATTACH only when the new schema is not
`main`; update `m_attached` only on success.  `attachOk` is the engine oracle
for the ATTACH statement.  (The path argument is carried inside the
non-main `Schema` value in this model.) -/
def MigrateHandleState.attach (st : MigrateHandleState) (newSchema : Schema)
    (attachOk : Bool) : AttachStepResult :=
  if newSchema.isMain then ⟨st, true, false⟩
  else if attachOk then ⟨{ st with attached := newSchema }, true, true⟩
  else ⟨st, false, true⟩

/-- Result of `MigrateHandle::reAttach`: the new handle state, the success
flag, and whether DETACH / ATTACH statements were executed. -/
structure ReAttachResult where
  state : MigrateHandleState
  succeed : Bool
  detachExecuted : Bool
  attachExecuted : Bool
deriving DecidableEq, Repr

/-- `MigrateHandle::reAttach`: skip detach+attach when the attached schema
already targets the new one; in every case clear `m_migratingInfo` and
finalize both migration statements. -/
def MigrateHandleState.reAttach (st : MigrateHandleState) (newPath : String)
    (newSchema : Schema) (detachOk attachOk : Bool) : ReAttachResult :=
  let r : ReAttachResult :=
    if isTargetingSameSchema st.attached newSchema then ⟨st, true, false, false⟩
    else
      let d := st.detach detachOk
      if d.succeed then
        let a := d.state.attach newSchema attachOk
        ⟨a.state, a.succeed, d.executed, a.executed⟩
      else ⟨d.state, false, d.executed, false⟩
  ⟨{ r.state.finalizeMigrationStatement with migratingInfo := none },
    r.succeed, r.detachExecuted, r.attachExecuted⟩

/-- Result of `MigrateHandle::dropSourceTable`. -/
structure DropSourceTableResult where
  state : MigrateHandleState
  succeed : Bool
deriving DecidableEq, Repr

/-- `MigrateHandle::dropSourceTable`: reattach to the info's source database;
only if that succeeded, set `m_migratingInfo := info` and execute the drop
statement (`dropOk` is the engine oracle for it). -/
def MigrateHandleState.dropSourceTable (st : MigrateHandleState)
    (info : MigrationInfo) (detachOk attachOk dropOk : Bool) :
    DropSourceTableResult :=
  let r := st.reAttach info.sourceDatabase info.getSchemaForSourceDatabase
    detachOk attachOk
  if r.succeed then ⟨{ r.state with migratingInfo := some info }, dropOk⟩
  else ⟨r.state, false⟩

/-- Result of `MigrateHandle::migrateRow`: the pair `(succeed, migrated)`
returned by the source, plus the number of rows left in the source table. -/
structure MigrateRowResult where
  succeed : Bool
  migrated : Bool
  sourceRows : ℕ
deriving DecidableEq, Repr

/-- `MigrateHandle::migrateRow` over a source table holding `sourceRows`
not-yet-migrated rows.  The migrate statement's step either fails
(`migrateStepOk = false`), or succeeds; a successful step reports
`changes() = 0` exactly when the source is drained (`sourceRows = 0`,
per the §4.2 statement contract).  On nonzero changes the delete statement is
stepped (`removeStepOk` oracle); only a successful delete moves the row. -/
def migrateRow (sourceRows : ℕ) (migrateStepOk removeStepOk : Bool) :
    MigrateRowResult :=
  if migrateStepOk then
    if sourceRows = 0 then ⟨true, true, sourceRows⟩
    else if removeStepOk then ⟨true, false, sourceRows - 1⟩
    else ⟨false, false, sourceRows⟩
  else ⟨false, false, sourceRows⟩

/-- Result of the in-transaction do-while loop of `MigrateHandle::migrateRows`:
the final `(succeed, migrated)`, the rows left, the final `cost` value,
the clock-trace index of the last cost measurement, and the number of
`migrateRow` steps executed. -/
structure MigrateLoopResult where
  succeed : Bool
  migrated : Bool
  sourceRows : ℕ
  cost : ℚ
  lastClockIndex : ℕ
  steps : ℕ
deriving DecidableEq, Repr

/-- The transaction body of `MigrateHandle::migrateRows`:
`do { (succeed, migrated) := migrateRow(); cost := now() - t0 } while
(succeed ∧ ¬migrated ∧ cost < budget)`.  `i` numbers the iterations (for the
step oracles) and `k` indexes the clock trace (`clock k` is the value of the
`k`-th `SteadyClock::now()` call of the enclosing `migrateRows`).
The recursion is structural on `sourceRows`: the loop repeats only when
`migrateRow` succeeded without draining, which moved exactly one row, so the
updated row count of the source is `n` when it was `n + 1`.  When
`sourceRows = 0`, `migrateRow` either fails or reports drained, and the loop
exits after that single step, as in the source. -/
def migrateLoop (migrateStepOk removeStepOk : ℕ → Bool) (clock : ℕ → ℚ)
    (t0 budget : ℚ) : ℕ → ℕ → ℕ → MigrateLoopResult
  | 0, i, k =>
    let r := migrateRow 0 (migrateStepOk i) (removeStepOk i)
    ⟨r.succeed, r.migrated, r.sourceRows, clock k - t0, k, 1⟩
  | n + 1, i, k =>
    let r := migrateRow (n + 1) (migrateStepOk i) (removeStepOk i)
    let cost := clock k - t0
    if r.succeed = true ∧ r.migrated = false ∧ cost < budget then
      let rest := migrateLoop migrateStepOk removeStepOk clock t0 budget
        n (i + 1) (k + 1)
      { rest with steps := rest.steps + 1 }
    else ⟨r.succeed, r.migrated, r.sourceRows, cost, k, 1⟩

/-- The environment of one `MigrateHandle::migrateRows` call: one oracle per
fallible engine primitive, the source-table row count, and the clock trace. -/
structure MigrateRowsEnv where
  tableExistsOk : Bool
  destinationExists : Bool
  detachOk : Bool
  attachOk : Bool
  migratePrepareOk : Bool
  removePrepareOk : Bool
  beginOk : Bool
  commitOk : Bool
  sourceRows : ℕ
  migrateStepOk : ℕ → Bool
  removeStepOk : ℕ → Bool
  clock : ℕ → ℚ

/-- Result of one `MigrateHandle::migrateRows` call: the new handle state, the
returned `(succeed, done)` pair, the rows left in the source table after the
call (rolled back to the initial count when the transaction did not commit),
whether the call reached `runTransaction` (`txRan`), whether that transaction
committed (`txSucceed`), and the number of `migrateRow` steps executed. -/
structure MigrateRowsResult where
  state : MigrateHandleState
  succeed : Bool
  done : Bool
  sourceRows : ℕ
  txRan : Bool
  txSucceed : Bool
  steps : ℕ

/-- The reattach-on-info-change block of `MigrateHandle::migrateRows`
(`if (m_migratingInfo != info) { ... }`): returns the resulting state and
whether the block succeeded. -/
def MigrateHandleState.migrateRowsAttach (st : MigrateHandleState)
    (info : MigrationInfo) (detachOk attachOk : Bool) :
    MigrateHandleState × Bool :=
  if st.migratingInfo = some info then (st, true)
  else
    let r := st.reAttach info.sourceDatabase info.getSchemaForSourceDatabase
      detachOk attachOk
    if r.succeed then ({ r.state with migratingInfo := some info }, true)
    else (r.state, false)

/-- One lazy-prepare block of `MigrateHandle::migrateRows`
(`if (!stmt->isPrepared() && !stmt->prepare(...)) return false;`): the slot
ends prepared, and the block succeeds, iff the slot was already prepared or
the fresh prepare succeeded. -/
def prepareSlot (prepared prepareOk : Bool) : Bool :=
  prepared || prepareOk

/-- The transaction part of `MigrateHandle::migrateRows`, entered with the
fully prepared state `st3`: compute the budget from the samples, read
`beforeTransaction` (clock index 0), run the loop (clock indices 1, ...), and
on commit read the whole-transaction duration (one more clock index) and
record the sample.  `done = migrated` only on commit. -/
def MigrateHandleState.migrateRowsTx (st3 : MigrateHandleState)
    (env : MigrateRowsEnv) : MigrateRowsResult :=
  let budget := calculateTimeIntervalWithinTransaction st3.samples
  let t0 := env.clock 0
  if env.beginOk = false then
    ⟨st3, false, false, env.sourceRows, true, false, 0⟩
  else
    let lr := migrateLoop env.migrateStepOk env.removeStepOk env.clock
      t0 budget env.sourceRows 0 1
    if lr.succeed = true ∧ env.commitOk = true then
      let timeIntervalWholeTranscation :=
        env.clock (lr.lastClockIndex + 1) - t0
      ⟨st3.addSample lr.cost timeIntervalWholeTranscation,
        true, lr.migrated, lr.sourceRows, true, true, lr.steps⟩
    else
      ⟨st3, false, false, env.sourceRows, true, false, lr.steps⟩

/-- `MigrateHandle::migrateRows`: check the destination table, reattach on an
info change, lazily prepare the two statements, and run the transaction part.
The clock trace is read at index 0 (`beforeTransaction`), at indices
1,...  inside the loop (`cost`), and once more after the commit
(`timeIntervalWholeTranscation`). -/
def MigrateHandleState.migrateRows (st : MigrateHandleState)
    (info : MigrationInfo) (env : MigrateRowsEnv) : MigrateRowsResult :=
  if env.tableExistsOk = false then
    ⟨st, false, false, env.sourceRows, false, false, 0⟩
  else if env.destinationExists = false then
    ⟨st, true, true, env.sourceRows, false, false, 0⟩
  else
    let a := st.migrateRowsAttach info env.detachOk env.attachOk
    if a.2 = false then
      ⟨a.1, false, false, env.sourceRows, false, false, 0⟩
    else if prepareSlot a.1.migratePrepared env.migratePrepareOk = false then
      ⟨a.1, false, false, env.sourceRows, false, false, 0⟩
    else
      let st2 := { a.1 with migratePrepared := true }
      if prepareSlot st2.removeMigratedPrepared env.removePrepareOk = false then
        ⟨st2, false, false, env.sourceRows, false, false, 0⟩
      else
        let st3 := { st2 with removeMigratedPrepared := true }
        st3.migrateRowsTx env

/-- One public operation on a `MigrateHandle`, with the engine oracles it
consumes.  `sourceTableExistsOp` models `MigrateHandle::sourceTableExists`,
whose only effect on the handle state is its internal `reAttach`. -/
inductive MigrateOp where
  | reAttachOp (newPath : String) (newSchema : Schema) (detachOk attachOk : Bool)
  | dropSourceTableOp (info : MigrationInfo) (detachOk attachOk dropOk : Bool)
  | sourceTableExistsOp (info : MigrationInfo) (detachOk attachOk : Bool)
  | migrateRowsOp (info : MigrationInfo) (env : MigrateRowsEnv)

/-- The state transition of one `MigrateOp`. -/
def migrateOpStep (st : MigrateHandleState) : MigrateOp → MigrateHandleState
  | .reAttachOp newPath newSchema detachOk attachOk =>
    (st.reAttach newPath newSchema detachOk attachOk).state
  | .dropSourceTableOp info detachOk attachOk dropOk =>
    (st.dropSourceTable info detachOk attachOk dropOk).state
  | .sourceTableExistsOp info detachOk attachOk =>
    (st.reAttach info.sourceDatabase info.getSchemaForSourceDatabase
      detachOk attachOk).state
  | .migrateRowsOp info env => (st.migrateRows info env).state

/-- Run a sequence of operations from a state. -/
def runOps (st : MigrateHandleState) (ops : List MigrateOp) : MigrateHandleState :=
  ops.foldl migrateOpStep st

/-- The clock trace of a `migrateRows` operation is strictly monotone:
`SteadyClock` is a monotonic clock, idealised here as strictly increasing
between consecutive reads.  Operations without a clock carry no constraint. -/
def opWellTimed : MigrateOp → Prop
  | .migrateRowsOp _ env => StrictMono env.clock
  | _ => True

/-- A sample slot is sound when it is still zero-initialised or holds a
recorded pair with `0 < withinTx < wholeTx`. -/
def sampleOK (s : Sample) : Prop :=
  (s.timeIntervalWithinTransaction = 0 ∧ s.timeIntervalWholeTransaction = 0)
    ∨ (0 < s.timeIntervalWithinTransaction
        ∧ s.timeIntervalWithinTransaction < s.timeIntervalWholeTransaction)

/-- All sample slots of a handle state are sound. -/
def samplesOK (st : MigrateHandleState) : Prop :=
  ∀ s ∈ st.samples, sampleOK s

/-! ### The notification hub (`Global.cpp`)

`std::map<StringView, _>` is modelled as an association list with unique keys
(uniqueness is preserved by the two mutators below and holds for the empty
initial maps).  Iteration of a dispatcher over the map is modelled by the
association list's own order.  Callbacks are opaque identifiers of type `ℕ`;
a stored callback is never null (`insert` takes a `some`). -/

/-- `m[name] = value` on a unique-key association list: replace the binding
in place, or append a new one. -/
def mapInsert {α : Type} (m : List (String × α)) (key : String) (value : α) :
    List (String × α) :=
  match m with
  | [] => [(key, value)]
  | (k, v) :: rest =>
    if k = key then (key, value) :: rest
    else (k, v) :: mapInsert rest key value

/-- `m.erase(name)` on a unique-key association list: drop the binding of
`key`, if any. -/
def mapErase {α : Type} (m : List (String × α)) (key : String) :
    List (String × α) :=
  match m with
  | [] => []
  | (k, v) :: rest => if k = key then rest else (k, v) :: mapErase rest key

/-- Lookup on an association list (first binding wins). -/
def mapLookup {α : Type} (m : List (String × α)) (key : String) : Option α :=
  match m with
  | [] => none
  | (k, v) :: rest => if k = key then some v else mapLookup rest key

/-- The keys of an association list. -/
def mapKeys {α : Type} (m : List (String × α)) : List String :=
  m.map Prod.fst

/-- `Global::LockEvent`: the four independently optional callbacks of one
lock-event subscriber. -/
structure LockEvent where
  willLock : Option ℕ
  lockDidChange : Option ℕ
  willShmLock : Option ℕ
  shmLockDidChange : Option ℕ
deriving DecidableEq, Repr

/-- The subscriber maps of the `Global` singleton:
`m_logNotifications`, `m_fileOpenedNotifications`,
`m_lockEventNotifications`. -/
structure GlobalState where
  logNotifications : List (String × ℕ)
  fileOpenedNotifications : List (String × ℕ)
  lockEventNotifications : List (String × LockEvent)
deriving DecidableEq, Repr

/-- `Global::setNotificationForLog`: insert/replace under `name` when the
callback is present, erase the entry under `name` when it is absent. -/
def setNotificationForLog (g : GlobalState) (name : String)
    (notification : Option ℕ) : GlobalState :=
  match notification with
  | some cb => { g with logNotifications := mapInsert g.logNotifications name cb }
  | none => { g with logNotifications := mapErase g.logNotifications name }

/-- `Global::setNotificationWhenFileOpened`: same shape as the log setter. -/
def setNotificationWhenFileOpened (g : GlobalState) (name : String)
    (notification : Option ℕ) : GlobalState :=
  match notification with
  | some cb =>
    { g with fileOpenedNotifications := mapInsert g.fileOpenedNotifications name cb }
  | none =>
    { g with fileOpenedNotifications := mapErase g.fileOpenedNotifications name }

/-- `Global::setNotificationForLockEvent`: build the `LockEvent` record from
the four optional callbacks and store it under `name` unconditionally —
there is no erase branch in the source. -/
def setNotificationForLockEvent (g : GlobalState) (name : String)
    (willLock lockDidChange willShmLock shmLockDidChange : Option ℕ) :
    GlobalState :=
  { g with lockEventNotifications :=
      (mapInsert g.lockEventNotifications name
        ⟨willLock, lockDidChange, willShmLock, shmLockDidChange⟩) }

/-- `Global::postLogNotification(rc, message)`: invoke every log subscriber
once with `(rc, message)`.  The result is the list of
(subscriber name, callback) invocations, in map order. -/
def postLogNotification (g : GlobalState) (rc : ℤ) (message : String) :
    List (String × ℕ) :=
  let _ := rc
  let _ := message
  g.logNotifications

/-- `Global::postWillLockNotification(path, type)`: invoke, for every
lock-event subscriber, its `willLock` callback when that callback is set. -/
def postWillLockNotification (g : GlobalState) (path : String)
    (lockType : ℕ) : List (String × ℕ) :=
  let _ := path
  let _ := lockType
  g.lockEventNotifications.filterMap fun e =>
    match e.2.willLock with
    | some cb => some (e.1, cb)
    | none => none

/-- `Global::postLockDidChangeNotification`: same shape on the
`lockDidChange` slot. -/
def postLockDidChangeNotification (g : GlobalState) (path : String)
    (lockType : ℕ) : List (String × ℕ) :=
  let _ := path
  let _ := lockType
  g.lockEventNotifications.filterMap fun e =>
    match e.2.lockDidChange with
    | some cb => some (e.1, cb)
    | none => none

/-- `Global::postWillShmLockNotification`: same shape on the `willShmLock`
slot. -/
def postWillShmLockNotification (g : GlobalState) (path : String)
    (mask : ℕ) : List (String × ℕ) :=
  let _ := path
  let _ := mask
  g.lockEventNotifications.filterMap fun e =>
    match e.2.willShmLock with
    | some cb => some (e.1, cb)
    | none => none

/-- `Global::postShmLockDidChangeNotification`: same shape on the
`shmLockDidChange` slot. -/
def postShmLockDidChangeNotification (g : GlobalState) (path : String)
    (sharedMask exclusiveMask : ℕ) : List (String × ℕ) :=
  let _ := path
  let _ := sharedMask
  let _ := exclusiveMask
  g.lockEventNotifications.filterMap fun e =>
    match e.2.shmLockDidChange with
    | some cb => some (e.1, cb)
    | none => none

/-! ### Sampler lemmas -/

theorem isValidSample_iff (s : Sample) :
    isValidSample s = true
      ↔ 0 < s.timeIntervalWithinTransaction ∧ 0 < s.timeIntervalWholeTransaction := by
  simp [isValidSample]

theorem valid_sum_within_pos (samples : List Sample)
    (h : samples.filter isValidSample ≠ []) :
    0 < ((samples.filter isValidSample).map
      Sample.timeIntervalWithinTransaction).sum := by
  apply List.sum_pos
  · intro a ha
    rcases List.mem_map.mp ha with ⟨s, hs, rfl⟩
    exact ((isValidSample_iff s).mp (List.mem_filter.mp hs).2).1
  · simpa [List.map_eq_nil_iff] using h

theorem valid_sum_whole_pos (samples : List Sample)
    (h : samples.filter isValidSample ≠ []) :
    0 < ((samples.filter isValidSample).map
      Sample.timeIntervalWholeTransaction).sum := by
  apply List.sum_pos
  · intro a ha
    rcases List.mem_map.mp ha with ⟨s, hs, rfl⟩
    exact ((isValidSample_iff s).mp (List.mem_filter.mp hs).2).2
  · simpa [List.map_eq_nil_iff] using h

theorem MigrateMaxExpectingDuration_pos : 0 < MigrateMaxExpectingDuration := by
  norm_num [MigrateMaxExpectingDuration]

theorem calculate_eq_nextBudgetSecondsSpec (samples : List Sample) :
    calculateTimeIntervalWithinTransaction samples
      = nextBudgetSecondsSpec samples := by
  by_cases hv : samples.filter isValidSample = []
  · simp [calculateTimeIntervalWithinTransaction, nextBudgetSecondsSpec, hv,
      MigrateMaxExpectingDuration]
  · have hw := valid_sum_whole_pos samples hv
    have hcond : ¬(samples.filter isValidSample = []
        ∨ ((samples.filter isValidSample).map
            Sample.timeIntervalWholeTransaction).sum = 0) := by
      push_neg
      exact ⟨hv, ne_of_gt hw⟩
    simp only [calculateTimeIntervalWithinTransaction, nextBudgetSecondsSpec]
    rw [if_neg hcond]

theorem calculate_no_valid (samples : List Sample)
    (hv : samples.filter isValidSample = []) :
    calculateTimeIntervalWithinTransaction samples
      = MigrateMaxInitializeDuration := by
  simp [calculateTimeIntervalWithinTransaction, hv, MigrateMaxExpectingDuration]

theorem calculate_ratio (samples : List Sample) (k : ℚ) (hk : 1 ≤ k)
    (hne : samples.filter isValidSample ≠ [])
    (hratio : ∀ s ∈ samples.filter isValidSample,
      s.timeIntervalWholeTransaction = k * s.timeIntervalWithinTransaction) :
    calculateTimeIntervalWithinTransaction samples
      = MigrateMaxExpectingDuration / k := by
  have hin := valid_sum_within_pos samples hne
  have hk0 : 0 < k := lt_of_lt_of_le one_pos hk
  have hmap : (samples.filter isValidSample).map Sample.timeIntervalWholeTransaction
      = (samples.filter isValidSample).map
          (fun s => k * s.timeIntervalWithinTransaction) :=
    List.map_congr_left hratio
  have hsum : ((samples.filter isValidSample).map
        Sample.timeIntervalWholeTransaction).sum
      = k * ((samples.filter isValidSample).map
          Sample.timeIntervalWithinTransaction).sum := by
    rw [hmap]
    exact List.sum_map_mul_left _ _ _
  have hval : MigrateMaxExpectingDuration
        * ((samples.filter isValidSample).map
            Sample.timeIntervalWithinTransaction).sum
        / ((samples.filter isValidSample).map
            Sample.timeIntervalWholeTransaction).sum
      = MigrateMaxExpectingDuration / k := by
    rw [hsum]
    exact mul_div_mul_right _ _ (ne_of_gt hin)
  have hle : MigrateMaxExpectingDuration / k ≤ MigrateMaxExpectingDuration :=
    div_le_self (le_of_lt MigrateMaxExpectingDuration_pos) hk
  have hpos : 0 < MigrateMaxExpectingDuration / k :=
    div_pos MigrateMaxExpectingDuration_pos hk0
  simp only [calculateTimeIntervalWithinTransaction, hval]
  rw [if_neg (by push_neg; exact ⟨hle, hpos⟩)]

/-! ### Transaction-loop lemmas -/

theorem migrateLoop_cost_lastClockIndex (migrateStepOk removeStepOk : ℕ → Bool)
    (clock : ℕ → ℚ) (t0 budget : ℚ) :
    ∀ n i k,
      (migrateLoop migrateStepOk removeStepOk clock t0 budget n i k).cost
          = clock (migrateLoop migrateStepOk removeStepOk clock t0 budget
              n i k).lastClockIndex - t0
        ∧ k ≤ (migrateLoop migrateStepOk removeStepOk clock t0 budget
            n i k).lastClockIndex := by
  intro n
  induction n with
  | zero =>
    intro i k
    simp [migrateLoop]
  | succ n ih =>
    intro i k
    simp only [migrateLoop]
    split
    · have h := ih (i + 1) (k + 1)
      exact ⟨h.1, le_trans (Nat.le_succ k) h.2⟩
    · simp

theorem migrateLoop_sourceRows_lt (migrateStepOk removeStepOk : ℕ → Bool)
    (clock : ℕ → ℚ) (t0 budget : ℚ) :
    ∀ n i k,
      (migrateLoop migrateStepOk removeStepOk clock t0 budget n i k).succeed = true →
      (migrateLoop migrateStepOk removeStepOk clock t0 budget n i k).migrated = false →
      (migrateLoop migrateStepOk removeStepOk clock t0 budget n i k).sourceRows < n := by
  intro n
  induction n with
  | zero =>
    intro i k
    cases hmo : migrateStepOk i <;>
      simp [migrateLoop, migrateRow, hmo]
  | succ n ih =>
    intro i k
    simp only [migrateLoop]
    split
    · intro hs hm
      exact Nat.lt_succ_of_lt (ih (i + 1) (k + 1) hs hm)
    · cases hmo : migrateStepOk i <;> cases hro : removeStepOk i <;>
        simp [migrateRow, hmo, hro]

theorem migrateLoop_steps_pos (migrateStepOk removeStepOk : ℕ → Bool)
    (clock : ℕ → ℚ) (t0 budget : ℚ) :
    ∀ n i k,
      1 ≤ (migrateLoop migrateStepOk removeStepOk clock t0 budget n i k).steps := by
  intro n
  induction n with
  | zero =>
    intro i k
    simp [migrateLoop]
  | succ n ih =>
    intro i k
    simp only [migrateLoop]
    split
    · exact Nat.le_succ_of_le (ih (i + 1) (k + 1))
    · simp

/-- On an already-drained source, a successful first migrate step makes the
loop exit immediately, reporting drained, with one step and cost measured at
clock index `k`. -/
theorem migrateLoop_zero (migrateStepOk removeStepOk : ℕ → Bool)
    (clock : ℕ → ℚ) (t0 budget : ℚ) (i k : ℕ)
    (h : migrateStepOk i = true) :
    migrateLoop migrateStepOk removeStepOk clock t0 budget 0 i k
      = ⟨true, true, 0, clock k - t0, k, 1⟩ := by
  simp [migrateLoop, migrateRow, h]

/-! ### `reAttach` and `dropSourceTable` lemmas -/

theorem reAttach_state (st : MigrateHandleState) (newPath : String)
    (newSchema : Schema) (detachOk attachOk : Bool) :
    (st.reAttach newPath newSchema detachOk attachOk).state.migratingInfo = none
      ∧ (st.reAttach newPath newSchema detachOk attachOk).state.migratePrepared = false
      ∧ (st.reAttach newPath newSchema detachOk attachOk).state.removeMigratedPrepared
          = false
      ∧ (st.reAttach newPath newSchema detachOk attachOk).state.samples = st.samples
      ∧ (st.reAttach newPath newSchema detachOk attachOk).state.samplePointing
          = st.samplePointing := by
  simp only [MigrateHandleState.reAttach, MigrateHandleState.detach,
    MigrateHandleState.attach, MigrateHandleState.finalizeMigrationStatement]
  repeat' split
  all_goals simp

theorem dropSourceTable_samples (st : MigrateHandleState) (info : MigrationInfo)
    (detachOk attachOk dropOk : Bool) :
    (st.dropSourceTable info detachOk attachOk dropOk).state.samples = st.samples
      ∧ (st.dropSourceTable info detachOk attachOk dropOk).state.samplePointing
          = st.samplePointing := by
  have h := reAttach_state st info.sourceDatabase info.getSchemaForSourceDatabase
    detachOk attachOk
  simp only [MigrateHandleState.dropSourceTable]
  split <;> simp [h.2.2.2.1, h.2.2.2.2]

theorem Schema.eq_main_of_isMain {a : Schema} (h : a.isMain = true) :
    a = Schema.main := by
  cases a <;> simp_all [Schema.isMain]

theorem isTargetingSameSchema_refl (a : Schema) :
    isTargetingSameSchema a a = true := by
  simp [isTargetingSameSchema]

theorem isTargetingSameSchema_main {a b : Schema} (ha : a.isMain = true)
    (hb : b.isMain = true) : isTargetingSameSchema a b = true := by
  rw [Schema.eq_main_of_isMain ha, Schema.eq_main_of_isMain hb]
  exact isTargetingSameSchema_refl Schema.main

theorem no_both_main_of_not_same {a b : Schema}
    (h : isTargetingSameSchema a b = false) (ha : a.isMain = true)
    (hb : b.isMain = true) : False := by
  rw [isTargetingSameSchema_main ha hb] at h
  exact Bool.noConfusion h

theorem reAttach_exec_iff (st : MigrateHandleState) (newPath : String)
    (newSchema : Schema) (detachOk attachOk : Bool) :
    ((st.reAttach newPath newSchema detachOk attachOk).detachExecuted = false
        ∧ (st.reAttach newPath newSchema detachOk attachOk).attachExecuted = false)
      ↔ isTargetingSameSchema st.attached newSchema = true := by
  simp only [MigrateHandleState.reAttach, MigrateHandleState.detach,
    MigrateHandleState.attach]
  repeat' split
  all_goals simp_all
  all_goals exfalso
  all_goals
    exact no_both_main_of_not_same (by assumption) (by assumption) (by assumption)

theorem reAttach_succeed_targets (st : MigrateHandleState) (newPath : String)
    (newSchema : Schema) (detachOk attachOk : Bool)
    (h : (st.reAttach newPath newSchema detachOk attachOk).succeed = true) :
    isTargetingSameSchema
      (st.reAttach newPath newSchema detachOk attachOk).state.attached newSchema
        = true := by
  simp only [MigrateHandleState.reAttach, MigrateHandleState.detach,
    MigrateHandleState.attach, MigrateHandleState.finalizeMigrationStatement] at h ⊢
  repeat' split at h
  all_goals repeat' split
  all_goals simp_all [isTargetingSameSchema_refl]
  all_goals first
    | exact isTargetingSameSchema_main rfl (by assumption)
    | exact absurd (by assumption : isTargetingSameSchema _ _ = false)
        (fun hf => no_both_main_of_not_same hf (by assumption) (by assumption))

theorem reAttach_success_attached (st : MigrateHandleState) (newPath : String)
    (newSchema : Schema) (detachOk attachOk : Bool)
    (hns : isTargetingSameSchema st.attached newSchema = false)
    (hd : detachOk = true) (ha : attachOk = true) :
    (st.reAttach newPath newSchema detachOk attachOk).succeed = true
      ∧ (st.reAttach newPath newSchema detachOk attachOk).state.attached
          = newSchema := by
  subst hd
  subst ha
  simp only [MigrateHandleState.reAttach, MigrateHandleState.detach,
    MigrateHandleState.attach, MigrateHandleState.finalizeMigrationStatement]
  simp only [hns]
  repeat' split
  all_goals simp_all
  all_goals first
    | exact absurd (by assumption : isTargetingSameSchema _ _ = false)
        (fun hf => no_both_main_of_not_same hf (by assumption) (by assumption))
    | exact (Schema.eq_main_of_isMain (by assumption)).symm

/-! ### Concrete instances used by counterexamples and witnesses -/

/-- A handle state whose attached schema is a user schema for `a.db`. -/
def stNamedA : MigrateHandleState :=
  { MigrateHandleState.initial with attached := Schema.named "a.db" "sa" }

/-- A target schema for a different source database `b.db`. -/
def schemaB : Schema := Schema.named "b.db" "sb"

/-- A migration info whose source database is `b.db`. -/
def infoB : MigrationInfo := ⟨"T", "b.db", "sb", "T"⟩

/-- C6 (counterexample): the claim asserts that two immediately consecutive
`reattach(P, S)` calls perform no attach/detach on the second call.  When the
first call fails (here its DETACH statement fails), the second call does
execute a DETACH again: the claim is false without a success proviso. -/
theorem claim_C6_counterexample :
    (stNamedA.reAttach "b.db" schemaB false true).succeed = false
      ∧ ((stNamedA.reAttach "b.db" schemaB false true).state.reAttach "b.db"
          schemaB false true).detachExecuted = true := by
  decide

/-- C6 (amended): `reattach(path, schema)` executes no DETACH and no ATTACH
statement iff the currently attached schema targets the same `(path, schema)`;
otherwise, when the engine accepts both statements, it detaches and attaches
so that the new schema is attached; and after a **successful** `reattach(P, S)`
an immediately following `reattach(P, S)` performs no attach/detach. -/
theorem claim_C6_amended (st : MigrateHandleState) (newPath : String)
    (newSchema : Schema) (detachOk attachOk : Bool) :
    (((st.reAttach newPath newSchema detachOk attachOk).detachExecuted = false
        ∧ (st.reAttach newPath newSchema detachOk attachOk).attachExecuted = false)
      ↔ isTargetingSameSchema st.attached newSchema = true)
    ∧ (isTargetingSameSchema st.attached newSchema = false → detachOk = true →
        attachOk = true →
        (st.reAttach newPath newSchema detachOk attachOk).succeed = true
          ∧ (st.reAttach newPath newSchema detachOk attachOk).state.attached
              = newSchema)
    ∧ ((st.reAttach newPath newSchema detachOk attachOk).succeed = true →
        ∀ detachOk2 attachOk2 : Bool,
          ((st.reAttach newPath newSchema detachOk attachOk).state.reAttach
              newPath newSchema detachOk2 attachOk2).detachExecuted = false
            ∧ ((st.reAttach newPath newSchema detachOk attachOk).state.reAttach
                newPath newSchema detachOk2 attachOk2).attachExecuted = false) := by
  refine ⟨reAttach_exec_iff st newPath newSchema detachOk attachOk, ?_, ?_⟩
  · exact reAttach_success_attached st newPath newSchema detachOk attachOk
  · intro h detachOk2 attachOk2
    exact (reAttach_exec_iff _ newPath newSchema detachOk2 attachOk2).mpr
      (reAttach_succeed_targets st newPath newSchema detachOk attachOk h)

/-- C6 (witness): at a concrete input, a successful schema switch attaches the
new schema and the immediately repeated call performs no DETACH/ATTACH. -/
theorem claim_C6_witness :
    (stNamedA.reAttach "b.db" schemaB true true).succeed = true
      ∧ (stNamedA.reAttach "b.db" schemaB true true).state.attached = schemaB
      ∧ ((stNamedA.reAttach "b.db" schemaB true true).state.reAttach "b.db"
          schemaB true true).detachExecuted = false := by
  have h := claim_C6_amended stNamedA "b.db" schemaB true true
  have hb := h.2.1 (by decide) rfl rfl
  exact ⟨hb.1, hb.2, (h.2.2 hb.1 true true).1⟩

/-- C7 (counterexample): the claim asserts `drop_source_table(info)` sets
`active_info := info` regardless of failures.  When the internal reattach
fails (here the DETACH statement fails), `m_migratingInfo` is left cleared,
not set to `info`. -/
theorem claim_C7_counterexample :
    (stNamedA.dropSourceTable infoB false true true).succeed = false
      ∧ (stNamedA.dropSourceTable infoB false true true).state.migratingInfo
          ≠ some infoB := by
  decide

/-- C7 (amended): `drop_source_table(info)` sets `active_info := info` exactly
when its internal reattach succeeds — in particular even when the drop
statement itself fails — and leaves `active_info = none` when the reattach
fails. -/
theorem claim_C7_amended (st : MigrateHandleState) (info : MigrationInfo)
    (detachOk attachOk dropOk : Bool) :
    (st.dropSourceTable info detachOk attachOk dropOk).state.migratingInfo
      = if (st.reAttach info.sourceDatabase info.getSchemaForSourceDatabase
            detachOk attachOk).succeed = true
        then some info else none := by
  simp only [MigrateHandleState.dropSourceTable]
  split
  · rfl
  · exact (reAttach_state st info.sourceDatabase info.getSchemaForSourceDatabase
      detachOk attachOk).1

/-- C8: every `reAttach` call — a no-op one, a failing one — clears
`m_migratingInfo` and finalizes both cached migration statements. -/
theorem claim_C8 (st : MigrateHandleState) (newPath : String)
    (newSchema : Schema) (detachOk attachOk : Bool) :
    (st.reAttach newPath newSchema detachOk attachOk).state.migratingInfo = none
      ∧ (st.reAttach newPath newSchema detachOk attachOk).state.migratePrepared
          = false
      ∧ (st.reAttach newPath newSchema detachOk
          attachOk).state.removeMigratedPrepared = false :=
  ⟨(reAttach_state st newPath newSchema detachOk attachOk).1,
    (reAttach_state st newPath newSchema detachOk attachOk).2.1,
    (reAttach_state st newPath newSchema detachOk attachOk).2.2.1⟩

/-! ### `migrateRows` stage lemmas -/

theorem migrateRowsAttach_samples (st : MigrateHandleState)
    (info : MigrationInfo) (detachOk attachOk : Bool) :
    (st.migrateRowsAttach info detachOk attachOk).1.samples = st.samples
      ∧ (st.migrateRowsAttach info detachOk attachOk).1.samplePointing
          = st.samplePointing := by
  have h := reAttach_state st info.sourceDatabase info.getSchemaForSourceDatabase
    detachOk attachOk
  simp only [MigrateHandleState.migrateRowsAttach]
  repeat' split
  all_goals simp_all

theorem migrateRowsAttach_success_info (st : MigrateHandleState)
    (info : MigrationInfo) (detachOk attachOk : Bool)
    (h : (st.migrateRowsAttach info detachOk attachOk).2 = true) :
    (st.migrateRowsAttach info detachOk attachOk).1.migratingInfo
      = some info := by
  simp only [MigrateHandleState.migrateRowsAttach] at h ⊢
  repeat' split at h
  all_goals simp_all

theorem migrateRowsTx_txRan (st3 : MigrateHandleState) (env : MigrateRowsEnv) :
    (st3.migrateRowsTx env).txRan = true := by
  simp only [MigrateHandleState.migrateRowsTx]
  repeat' split
  all_goals rfl

theorem migrateRowsTx_fail (st3 : MigrateHandleState) (env : MigrateRowsEnv)
    (h : (st3.migrateRowsTx env).txSucceed = false) :
    (st3.migrateRowsTx env).state = st3
      ∧ (st3.migrateRowsTx env).succeed = false
      ∧ (st3.migrateRowsTx env).done = false := by
  simp only [MigrateHandleState.migrateRowsTx] at h ⊢
  repeat' split
  all_goals simp_all

/-! ### `migrateRows` claims -/

/-- C4: a `migrate_rows` call whose transaction fails returns
`ok = false, done = false`, leaves the sampler ring and cursor untouched, and
leaves both statements prepared and the active info set, so the next call can
resume without re-preparing. -/
theorem claim_C4 (st : MigrateHandleState) (info : MigrationInfo)
    (env : MigrateRowsEnv)
    (h1 : (st.migrateRows info env).txRan = true)
    (h2 : (st.migrateRows info env).txSucceed = false) :
    (st.migrateRows info env).succeed = false
      ∧ (st.migrateRows info env).done = false
      ∧ (st.migrateRows info env).state.samples = st.samples
      ∧ (st.migrateRows info env).state.samplePointing = st.samplePointing
      ∧ (st.migrateRows info env).state.migratePrepared = true
      ∧ (st.migrateRows info env).state.removeMigratedPrepared = true
      ∧ (st.migrateRows info env).state.migratingInfo = some info := by
  have hsam := migrateRowsAttach_samples st info env.detachOk env.attachOk
  simp only [MigrateHandleState.migrateRows] at h1 h2 ⊢
  repeat' split at h1
  all_goals simp_all
  rename_i ha _ _
  have hinfo := migrateRowsAttach_success_info st info env.detachOk env.attachOk
    (by simp_all)
  have hfail := migrateRowsTx_fail _ env h2
  simp_all

/-- C5: a completed `migrate_rows` that returns `ok = true, done = false`
executed at least one `migrate_one_row` step and moved at least one row out of
the source table. -/
theorem claim_C5 (st : MigrateHandleState) (info : MigrationInfo)
    (env : MigrateRowsEnv)
    (h1 : (st.migrateRows info env).succeed = true)
    (h2 : (st.migrateRows info env).done = false) :
    1 ≤ (st.migrateRows info env).steps
      ∧ (st.migrateRows info env).sourceRows < env.sourceRows := by
  simp only [MigrateHandleState.migrateRows] at h1 h2 ⊢
  repeat' split at h1
  all_goals simp_all
  simp only [MigrateHandleState.migrateRowsTx] at h1 h2 ⊢
  repeat' split at h1
  all_goals simp_all
  constructor
  · exact migrateLoop_steps_pos env.migrateStepOk env.removeStepOk env.clock
      (env.clock 0) _ env.sourceRows 0 1
  · apply migrateLoop_sourceRows_lt env.migrateStepOk env.removeStepOk env.clock
      (env.clock 0) _ env.sourceRows 0 1 (by simp_all) h2

/-- C2: `calculateTimeIntervalWithinTransaction` agrees everywhere with the
spec's `next_budget_seconds` (scale `MAX_EXPECTING_DURATION` by the ratio of
the in-transaction and whole-transaction sums over exactly the valid samples,
falling back to the initialisation budget when there is no valid sample or
the value is out of range; the C++ NaN only arises in the no-valid-sample
0/0 case, which the `ℚ` model sends to the same fallback); with no valid
sample it returns the initialisation budget; and when every valid sample has
`whole = k · within` (with at least one valid sample; `k ≥ 1` holds for every
sample the handle ever records, by C3), it returns
`MigrateMaxExpectingDuration / k`. -/
theorem claim_C2 (samples : List Sample) (k : ℚ) :
    calculateTimeIntervalWithinTransaction samples = nextBudgetSecondsSpec samples
      ∧ (samples.filter isValidSample = [] →
          calculateTimeIntervalWithinTransaction samples
            = MigrateMaxInitializeDuration)
      ∧ (1 ≤ k → samples.filter isValidSample ≠ [] →
          (∀ s ∈ samples.filter isValidSample,
            s.timeIntervalWholeTransaction = k * s.timeIntervalWithinTransaction) →
          calculateTimeIntervalWithinTransaction samples
            = MigrateMaxExpectingDuration / k) :=
  ⟨calculate_eq_nextBudgetSecondsSpec samples,
    calculate_no_valid samples,
    fun hk hne hratio => calculate_ratio samples k hk hne hratio⟩

/-- C2 (witness): with the single valid sample `(1, 2)` (ratio `k = 2`) the
budget is `MigrateMaxExpectingDuration / 2`, and with no valid sample the
budget is the initialisation budget. -/
theorem claim_C2_witness :
    calculateTimeIntervalWithinTransaction [Sample.mk 1 2]
        = MigrateMaxExpectingDuration / 2
      ∧ calculateTimeIntervalWithinTransaction []
        = MigrateMaxInitializeDuration := by
  constructor
  · refine (claim_C2 [Sample.mk 1 2] 2).2.2 (by norm_num) ?_ ?_
    · simp [isValidSample]
    · intro s hs
      simp only [List.filter, isValidSample] at hs
      norm_num at hs
      subst hs
      norm_num
  · exact (claim_C2 [] 2).2.1 rfl

theorem filter_replicate_zero (n : ℕ) :
    (List.replicate n Sample.zero).filter isValidSample = [] := by
  induction n with
  | zero => rfl
  | succ n ih => simp [List.replicate_succ, ih, isValidSample, Sample.zero]

@[simp]
theorem calculate_replicate_zero (n : ℕ) :
    calculateTimeIntervalWithinTransaction (List.replicate n Sample.zero)
      = MigrateMaxInitializeDuration :=
  calculate_no_valid _ (filter_replicate_zero n)

/-- A migration info for source database `a.db`. -/
def infoA : MigrationInfo := ⟨"T", "a.db", "sa", "T"⟩

/-- A handle state with `infoA` active and both statements prepared. -/
def stPreparedA : MigrateHandleState :=
  { MigrateHandleState.initial with
    migratingInfo := some infoA
    attached := Schema.named "a.db" "sa"
    migratePrepared := true
    removeMigratedPrepared := true }

/-- An all-success environment over an empty source table, with the identity
clock trace. -/
def envEmptySource : MigrateRowsEnv :=
  { tableExistsOk := true
    destinationExists := true
    detachOk := true
    attachOk := true
    migratePrepareOk := true
    removePrepareOk := true
    beginOk := true
    commitOk := true
    sourceRows := 0
    migrateStepOk := fun _ => true
    removeStepOk := fun _ => true
    clock := fun k => (k : ℚ) }

/-- Like `envEmptySource` but the source holds 3 rows. -/
def envThreeRows : MigrateRowsEnv := { envEmptySource with sourceRows := 3 }

/-- Like `envThreeRows` but every migrate step fails. -/
def envFailStep : MigrateRowsEnv :=
  { envThreeRows with migrateStepOk := fun _ => false }

/-- C1 (counterexample): the claim asserts that a `migrate_rows` whose
transaction commits with no row moved records no sample and leaves the
sampler unchanged.  On an empty source with every engine call succeeding, the
call indeed returns `ok = true, done = true`, but `addSample` ran: the sample
cursor moved from 0 to 1. -/
theorem claim_C1_counterexample :
    (stPreparedA.migrateRows infoA envEmptySource).succeed = true
      ∧ (stPreparedA.migrateRows infoA envEmptySource).done = true
      ∧ (stPreparedA.migrateRows infoA envEmptySource).state.samplePointing = 1
      ∧ stPreparedA.samplePointing = 0 := by
  norm_num [stPreparedA, infoA, envEmptySource, MigrateHandleState.initial,
    MigrateHandleState.migrateRows, MigrateHandleState.migrateRowsAttach,
    prepareSlot, MigrateHandleState.migrateRowsTx, migrateLoop, migrateRow,
    MigrateHandleState.addSample, numberOfSamples]

/-- C1 (amended): on a `migrate_rows` call that finds the source drained on
the very first step and commits (destination present, info active, statements
prepared, transaction begin/commit succeed), the call returns
`ok = true, done = true`, **and a sample is recorded**: `addSample` is called
unconditionally on transaction success, so the ring slot at the cursor is
overwritten with the measured durations (`clock 1 - clock 0` inside,
`clock 2 - clock 0` whole) and the cursor advances. -/
theorem claim_C1_amended (st : MigrateHandleState) (info : MigrationInfo)
    (env : MigrateRowsEnv)
    (h1 : env.tableExistsOk = true) (h2 : env.destinationExists = true)
    (h3 : st.migratingInfo = some info)
    (h4 : st.migratePrepared = true) (h5 : st.removeMigratedPrepared = true)
    (h6 : env.beginOk = true) (h7 : env.commitOk = true)
    (h8 : env.sourceRows = 0) (h9 : env.migrateStepOk 0 = true) :
    (st.migrateRows info env).succeed = true
      ∧ (st.migrateRows info env).done = true
      ∧ (st.migrateRows info env).state.samples
          = st.samples.set st.samplePointing
              ⟨env.clock 1 - env.clock 0, env.clock 2 - env.clock 0⟩
      ∧ (st.migrateRows info env).state.samplePointing
          = if numberOfSamples ≤ st.samplePointing + 1 then 0
            else st.samplePointing + 1 := by
  simp only [MigrateHandleState.migrateRows, MigrateHandleState.migrateRowsAttach,
    prepareSlot, MigrateHandleState.migrateRowsTx, h1, h2, h3, h4, h5, h6, h8]
  rw [migrateLoop_zero env.migrateStepOk env.removeStepOk env.clock
    (env.clock 0) _ 0 1 h9]
  simp [MigrateHandleState.addSample, h4, h5, h7]

/-- C1 (witness): the amended statement at the concrete empty-source run. -/
theorem claim_C1_witness :
    (stPreparedA.migrateRows infoA envEmptySource).succeed = true
      ∧ (stPreparedA.migrateRows infoA envEmptySource).done = true
      ∧ (stPreparedA.migrateRows infoA envEmptySource).state.samples
          = stPreparedA.samples.set stPreparedA.samplePointing
              ⟨envEmptySource.clock 1 - envEmptySource.clock 0,
                envEmptySource.clock 2 - envEmptySource.clock 0⟩
      ∧ (stPreparedA.migrateRows infoA envEmptySource).state.samplePointing
          = if numberOfSamples ≤ stPreparedA.samplePointing + 1 then 0
            else stPreparedA.samplePointing + 1 :=
  claim_C1_amended stPreparedA infoA envEmptySource rfl rfl rfl rfl rfl rfl rfl
    rfl rfl

/-- C4 (witness): the theorem at a concrete run whose first migrate step
fails inside the transaction. -/
theorem claim_C4_witness :
    (stPreparedA.migrateRows infoA envFailStep).succeed = false
      ∧ (stPreparedA.migrateRows infoA envFailStep).done = false
      ∧ (stPreparedA.migrateRows infoA envFailStep).state.samples
          = stPreparedA.samples
      ∧ (stPreparedA.migrateRows infoA envFailStep).state.samplePointing
          = stPreparedA.samplePointing
      ∧ (stPreparedA.migrateRows infoA envFailStep).state.migratePrepared = true
      ∧ (stPreparedA.migrateRows infoA envFailStep).state.removeMigratedPrepared
          = true
      ∧ (stPreparedA.migrateRows infoA envFailStep).state.migratingInfo
          = some infoA :=
  claim_C4 stPreparedA infoA envFailStep
    (by norm_num [stPreparedA, infoA, envFailStep, envThreeRows, envEmptySource,
      MigrateHandleState.initial, MigrateHandleState.migrateRows,
      MigrateHandleState.migrateRowsAttach, prepareSlot,
      MigrateHandleState.migrateRowsTx, migrateLoop, migrateRow])
    (by norm_num [stPreparedA, infoA, envFailStep, envThreeRows, envEmptySource,
      MigrateHandleState.initial, MigrateHandleState.migrateRows,
      MigrateHandleState.migrateRowsAttach, prepareSlot,
      MigrateHandleState.migrateRowsTx, migrateLoop, migrateRow])

/-- C5 (witness): the theorem at a concrete run over 3 source rows whose
budget is exhausted after the first moved row. -/
theorem claim_C5_witness :
    1 ≤ (stPreparedA.migrateRows infoA envThreeRows).steps
      ∧ (stPreparedA.migrateRows infoA envThreeRows).sourceRows
          < envThreeRows.sourceRows :=
  claim_C5 stPreparedA infoA envThreeRows
    (by norm_num [stPreparedA, infoA, envThreeRows, envEmptySource,
      MigrateHandleState.initial, MigrateHandleState.migrateRows,
      MigrateHandleState.migrateRowsAttach, prepareSlot,
      MigrateHandleState.migrateRowsTx, migrateLoop, migrateRow,
      MigrateMaxInitializeDuration])
    (by norm_num [stPreparedA, infoA, envThreeRows, envEmptySource,
      MigrateHandleState.initial, MigrateHandleState.migrateRows,
      MigrateHandleState.migrateRowsAttach, prepareSlot,
      MigrateHandleState.migrateRowsTx, migrateLoop, migrateRow,
      MigrateMaxInitializeDuration])

/-! ### The sampler invariant (C3) -/

theorem addSample_samplesOK (st : MigrateHandleState) (w whole : ℚ)
    (hw : 0 < w) (hlt : w < whole) (h : samplesOK st) :
    samplesOK (st.addSample w whole) := by
  intro s hs
  simp only [MigrateHandleState.addSample] at hs
  rcases List.mem_or_eq_of_mem_set hs with h1 | h1
  · exact h s h1
  · subst h1
    exact Or.inr ⟨hw, hlt⟩

theorem migrateRowsTx_samplesOK (st3 : MigrateHandleState)
    (env : MigrateRowsEnv) (hmono : StrictMono env.clock)
    (h : samplesOK st3) : samplesOK (st3.migrateRowsTx env).state := by
  have hc := migrateLoop_cost_lastClockIndex env.migrateStepOk env.removeStepOk
    env.clock (env.clock 0) (calculateTimeIntervalWithinTransaction st3.samples)
    env.sourceRows 0 1
  simp only [MigrateHandleState.migrateRowsTx]
  repeat' split
  · exact h
  · apply addSample_samplesOK _ _ _ _ _ h
    · rw [hc.1]
      exact sub_pos.mpr (hmono (lt_of_lt_of_le zero_lt_one hc.2))
    · rw [hc.1]
      exact sub_lt_sub_right (hmono (Nat.lt_succ_self _)) _
  · exact h

theorem migrateRows_samplesOK (st : MigrateHandleState) (info : MigrationInfo)
    (env : MigrateRowsEnv) (hmono : StrictMono env.clock) (h : samplesOK st) :
    samplesOK (st.migrateRows info env).state := by
  have hatt : samplesOK (st.migrateRowsAttach info env.detachOk env.attachOk).1 := by
    intro s hs
    apply h
    rwa [(migrateRowsAttach_samples st info env.detachOk env.attachOk).1] at hs
  simp only [MigrateHandleState.migrateRows]
  repeat' split
  all_goals first
    | exact h
    | exact hatt
    | exact migrateRowsTx_samplesOK _ env hmono hatt

theorem migrateOpStep_samplesOK (st : MigrateHandleState) (op : MigrateOp)
    (hop : opWellTimed op) (h : samplesOK st) :
    samplesOK (migrateOpStep st op) := by
  cases op with
  | reAttachOp newPath newSchema detachOk attachOk =>
    intro x hx
    simp only [migrateOpStep] at hx
    apply h
    rwa [(reAttach_state st newPath newSchema detachOk attachOk).2.2.2.1] at hx
  | dropSourceTableOp info detachOk attachOk dropOk =>
    intro x hx
    simp only [migrateOpStep] at hx
    apply h
    rwa [(dropSourceTable_samples st info detachOk attachOk dropOk).1] at hx
  | sourceTableExistsOp info detachOk attachOk =>
    intro x hx
    simp only [migrateOpStep] at hx
    apply h
    rwa [(reAttach_state st info.sourceDatabase info.getSchemaForSourceDatabase
      detachOk attachOk).2.2.2.1] at hx
  | migrateRowsOp info env => exact migrateRows_samplesOK st info env hop h

theorem runOps_samplesOK :
    ∀ (ops : List MigrateOp) (st : MigrateHandleState), samplesOK st →
      (∀ op ∈ ops, opWellTimed op) → samplesOK (runOps st ops) := by
  intro ops
  induction ops with
  | nil => intro st h _; exact h
  | cons op ops ih =>
    intro st h hops
    have hstep := migrateOpStep_samplesOK st op (hops op (by simp)) h
    have hrest : ∀ o ∈ ops, opWellTimed o := fun o ho => hops o (by simp [ho])
    simpa [runOps, List.foldl] using ih (migrateOpStep st op) hstep hrest

theorem initial_samplesOK : samplesOK MigrateHandleState.initial := by
  intro s hs
  simp only [MigrateHandleState.initial] at hs
  rw [List.eq_of_mem_replicate hs]
  exact Or.inl ⟨rfl, rfl⟩

/-- C3: in every state reachable from a fresh `MigrateHandle` by its public
operations (with strictly monotone clock traces), every sample slot is either
still zero-initialised or holds a recorded pair with
`0 < in_tx < whole_tx`; in particular every valid sample satisfies
`whole_tx > in_tx > 0` — no operation ever records a degenerate sample. -/
theorem claim_C3 (ops : List MigrateOp)
    (hops : ∀ op ∈ ops, opWellTimed op) :
    ∀ s ∈ (runOps MigrateHandleState.initial ops).samples,
      sampleOK s
        ∧ (isValidSample s = true →
            0 < s.timeIntervalWithinTransaction
              ∧ s.timeIntervalWithinTransaction
                  < s.timeIntervalWholeTransaction) := by
  intro s hs
  have hok := runOps_samplesOK ops MigrateHandleState.initial initial_samplesOK
    hops s hs
  refine ⟨hok, fun hv => ?_⟩
  rcases hok with h1 | h1
  · rcases (isValidSample_iff s).mp hv with ⟨hpos, _⟩
    rw [h1.1] at hpos
    exact absurd hpos (lt_irrefl 0)
  · exact h1

/-- C3 (witness): one reachable run (a `migrate_rows` over an empty source
with the identity clock) whose recorded sample satisfies the invariant. -/
theorem claim_C3_witness :
    (∀ op ∈ [MigrateOp.migrateRowsOp infoA envEmptySource], opWellTimed op)
      ∧ ∀ s ∈ (runOps MigrateHandleState.initial
            [MigrateOp.migrateRowsOp infoA envEmptySource]).samples,
          sampleOK s
            ∧ (isValidSample s = true →
                0 < s.timeIntervalWithinTransaction
                  ∧ s.timeIntervalWithinTransaction
                      < s.timeIntervalWholeTransaction) := by
  have hops : ∀ op ∈ [MigrateOp.migrateRowsOp infoA envEmptySource],
      opWellTimed op := by
    intro op hop
    rw [List.mem_singleton.mp hop]
    show StrictMono (fun k : ℕ => (k : ℚ))
    exact Nat.strictMono_cast
  exact ⟨hops, claim_C3 [MigrateOp.migrateRowsOp infoA envEmptySource] hops⟩

/-! ### Association-list lemmas for the hub maps -/

theorem mapLookup_mapInsert_self {α : Type} (m : List (String × α))
    (key : String) (value : α) :
    mapLookup (mapInsert m key value) key = some value := by
  induction m with
  | nil => simp [mapInsert, mapLookup]
  | cons e rest ih =>
    by_cases h : e.1 = key
    · simp [mapInsert, mapLookup, h]
    · simp [mapInsert, mapLookup, h, ih]

theorem mem_mapKeys_of_mem {α : Type} {m : List (String × α)} {k : String}
    {v : α} (h : (k, v) ∈ m) : k ∈ mapKeys m :=
  List.mem_map_of_mem Prod.fst h

theorem not_mem_of_not_mem_mapKeys {α : Type} {m : List (String × α)}
    {k : String} (h : k ∉ mapKeys m) (v : α) : (k, v) ∉ m :=
  fun hm => h (mem_mapKeys_of_mem hm)

theorem mapLookup_eq_none_of_not_mem_mapKeys {α : Type} {m : List (String × α)}
    {k : String} (h : k ∉ mapKeys m) : mapLookup m k = none := by
  induction m with
  | nil => rfl
  | cons e rest ih =>
    simp only [mapKeys, List.map_cons, List.mem_cons] at h
    push_neg at h
    have h1 : ¬(e.1 = k) := fun he => h.1 he.symm
    simp only [mapLookup, if_neg h1]
    exact ih (by simpa [mapKeys] using h.2)

theorem mapLookup_mapErase_self {α : Type} (m : List (String × α)) (key : String)
    (hn : (mapKeys m).Nodup) :
    mapLookup (mapErase m key) key = none := by
  induction m with
  | nil => rfl
  | cons e rest ih =>
    simp only [mapKeys, List.map_cons, List.nodup_cons] at hn
    by_cases h : e.1 = key
    · simp only [mapErase, if_pos h]
      exact mapLookup_eq_none_of_not_mem_mapKeys (by rw [← h]; exact hn.1)
    · simp only [mapErase, if_neg h, mapLookup, if_neg h]
      exact ih hn.2

theorem mapErase_sublist {α : Type} (m : List (String × α)) (key : String) :
    (mapErase m key).Sublist m := by
  induction m with
  | nil => simp [mapErase]
  | cons e rest ih =>
    by_cases h : e.1 = key
    · simp only [mapErase, if_pos h]
      exact (List.sublist_cons_self e rest)
    · simp only [mapErase, if_neg h]
      exact ih.cons₂ e

theorem mapKeys_mapErase_nodup {α : Type} (m : List (String × α)) (key : String)
    (hn : (mapKeys m).Nodup) : (mapKeys (mapErase m key)).Nodup :=
  ((mapErase_sublist m key).map Prod.fst).nodup hn

theorem mem_mapKeys_mapInsert {α : Type} {m : List (String × α)} {x : String}
    (key : String) (value : α) (h : x ∈ mapKeys m) :
    x ∈ mapKeys (mapInsert m key value) := by
  induction m with
  | nil => simp [mapKeys] at h
  | cons e rest ih =>
    by_cases hk : e.1 = key
    · simp only [mapInsert, if_pos hk]
      simp only [mapKeys, List.map_cons, List.mem_cons] at h ⊢
      rcases h with h | h
      · exact Or.inl (by rw [h, hk])
      · exact Or.inr h
    · simp only [mapInsert, if_neg hk]
      simp only [mapKeys, List.map_cons, List.mem_cons] at h ⊢
      rcases h with h | h
      · exact Or.inl h
      · exact Or.inr (ih h)

theorem mapLookup_of_mem {α : Type} {m : List (String × α)}
    (hn : (mapKeys m).Nodup) {k : String} {v : α} (h : (k, v) ∈ m) :
    mapLookup m k = some v := by
  induction m with
  | nil => exact absurd h (List.not_mem_nil _)
  | cons e rest ih =>
    simp only [mapKeys, List.map_cons, List.nodup_cons] at hn
    rcases List.mem_cons.mp h with h1 | h1
    · rw [← h1]
      simp [mapLookup]
    · have hne : ¬(e.1 = k) := by
        intro he
        exact hn.1 (he ▸ mem_mapKeys_of_mem h1)
      simp only [mapLookup, if_neg hne]
      exact ih hn.2 h1

theorem count_eq_ite_of_nodup {α : Type} [DecidableEq α] (m : List (String × α))
    (hn : (mapKeys m).Nodup) (n : String) (c : α) :
    m.count (n, c) = if mapLookup m n = some c then 1 else 0 := by
  induction m with
  | nil => simp [mapLookup]
  | cons e rest ih =>
    simp only [mapKeys, List.map_cons, List.nodup_cons] at hn
    rcases e with ⟨k, v⟩
    by_cases hk : k = n
    · subst hk
      have hz : rest.count (k, c) = 0 :=
        List.count_eq_zero.mpr (not_mem_of_not_mem_mapKeys hn.1 c)
      by_cases hv : v = c
      · subst hv
        simp [List.count_cons, hz, mapLookup]
      · simp [List.count_cons, hz, mapLookup, hv, Ne.symm hv]
    · have hne : ((k, v) : String × α) ≠ (n, c) := by
        intro he
        exact hk (congrArg Prod.fst he)
      simp only [List.count_cons, mapLookup, if_neg hk]
      simp [hne, ih hn.2]

/-! ### Hub claims -/

/-- C9: `set_log_notification` inserts/replaces under the name when a
callback is given and removes the entry when none is given; a log event
invokes each registered subscriber exactly once (count 1 for registered
pairs, 0 otherwise) and invokes no removed subscriber. -/
theorem claim_C9 (g : GlobalState) (name : String) (cb : ℕ) (rc : ℤ)
    (message : String) (n : String) (c : ℕ) :
    mapLookup (setNotificationForLog g name (some cb)).logNotifications name
        = some cb
      ∧ ((mapKeys g.logNotifications).Nodup →
          mapLookup (setNotificationForLog g name none).logNotifications name
            = none)
      ∧ ((mapKeys g.logNotifications).Nodup →
          (postLogNotification g rc message).count (n, c)
            = if mapLookup g.logNotifications n = some c then 1 else 0)
      ∧ ((mapKeys g.logNotifications).Nodup →
          (postLogNotification (setNotificationForLog g name none) rc
            message).count (name, c) = 0) := by
  refine ⟨mapLookup_mapInsert_self g.logNotifications name cb,
    fun hn => mapLookup_mapErase_self g.logNotifications name hn,
    fun hn => count_eq_ite_of_nodup g.logNotifications hn n c,
    fun hn => ?_⟩
  have hn2 : (mapKeys (mapErase g.logNotifications name)).Nodup :=
    mapKeys_mapErase_nodup g.logNotifications name hn
  have := count_eq_ite_of_nodup (mapErase g.logNotifications name) hn2 name c
  rw [mapLookup_mapErase_self g.logNotifications name hn] at this
  simpa [postLogNotification, setNotificationForLog] using this

/-- A registered `g0` with two log subscribers and one all-null lock-event
subscriber, used by concrete witnesses. -/
def g0 : GlobalState :=
  ⟨[("a", 1), ("b", 2)], [], [("a", ⟨none, none, none, none⟩)]⟩

/-- C9 (witness): the theorem at `g0` — replacing `"a"`, removing `"a"`,
exactly-once dispatch to `"b"`, and no dispatch to the removed `"a"`. -/
theorem claim_C9_witness :
    mapLookup (setNotificationForLog g0 "a" (some 7)).logNotifications "a"
        = some 7
      ∧ mapLookup (setNotificationForLog g0 "a" none).logNotifications "a" = none
      ∧ ((postLogNotification g0 0 "").count ("b", 2)
          = if mapLookup g0.logNotifications "b" = some 2 then 1 else 0)
      ∧ (postLogNotification (setNotificationForLog g0 "a" none) 0 "").count
          ("a", 2) = 0 := by
  have h := claim_C9 g0 "a" 7 0 "" "b" 2
  exact ⟨h.1, h.2.1 (by decide), h.2.2.1 (by decide), h.2.2.2 (by decide)⟩

theorem lockEvent_not_invoked {g : GlobalState}
    (hn : (mapKeys g.lockEventNotifications).Nodup) {n : String}
    (hlook : mapLookup g.lockEventNotifications n
      = some ⟨none, none, none, none⟩)
    (select : LockEvent → Option ℕ)
    (hsel : select ⟨none, none, none, none⟩ = none) (cb : ℕ) :
    (n, cb) ∉ g.lockEventNotifications.filterMap fun e =>
      match select e.2 with
      | some c => some (e.1, c)
      | none => none := by
  intro hmem
  rcases List.mem_filterMap.mp hmem with ⟨⟨k, ev⟩, hin, hf⟩
  cases hs : select ev with
  | none => rw [hs] at hf; exact Option.noConfusion hf
  | some c =>
    rw [hs] at hf
    have hk : k = n := congrArg Prod.fst (Option.some_injective _ hf)
    subst hk
    have hlk := mapLookup_of_mem hn hin
    rw [hlook] at hlk
    have hev : ev = ⟨none, none, none, none⟩ := (Option.some_injective _ hlk.symm)
    rw [hev, hsel] at hs
    exact Option.noConfusion hs

/-- C10: `set_lock_event_notification` stores an entry under the name even
when all four callbacks are absent; no call of it ever removes another
subscriber (there is no removal path, unlike the log registration); and an
all-null entry is never invoked by any of the four lock-event dispatchers. -/
theorem claim_C10 (g : GlobalState) (name : String)
    (willLock lockDidChange willShmLock shmLockDidChange : Option ℕ)
    (n path : String) (lockType mask : ℕ) :
    mapLookup (setNotificationForLockEvent g name willLock lockDidChange
        willShmLock shmLockDidChange).lockEventNotifications name
      = some ⟨willLock, lockDidChange, willShmLock, shmLockDidChange⟩
      ∧ (n ∈ mapKeys g.lockEventNotifications →
          n ∈ mapKeys (setNotificationForLockEvent g name willLock lockDidChange
            willShmLock shmLockDidChange).lockEventNotifications)
      ∧ ((mapKeys g.lockEventNotifications).Nodup →
          mapLookup g.lockEventNotifications n = some ⟨none, none, none, none⟩ →
          ∀ cb : ℕ,
            (n, cb) ∉ postWillLockNotification g path lockType
              ∧ (n, cb) ∉ postLockDidChangeNotification g path lockType
              ∧ (n, cb) ∉ postWillShmLockNotification g path mask
              ∧ (n, cb) ∉ postShmLockDidChangeNotification g path mask mask) := by
  refine ⟨mapLookup_mapInsert_self g.lockEventNotifications name _,
    fun hmem => mem_mapKeys_mapInsert name _ hmem,
    fun hn hlook cb =>
      ⟨lockEvent_not_invoked hn hlook (fun ev => ev.willLock) rfl cb,
        lockEvent_not_invoked hn hlook (fun ev => ev.lockDidChange) rfl cb,
        lockEvent_not_invoked hn hlook (fun ev => ev.willShmLock) rfl cb,
        lockEvent_not_invoked hn hlook (fun ev => ev.shmLockDidChange) rfl cb⟩⟩

/-- C10 (witness): registering an all-null lock-event subscriber under a new
name keeps existing keys, is itself stored, and the pre-existing all-null
subscriber `"a"` of `g0` is invoked by no dispatcher. -/
theorem claim_C10_witness :
    mapLookup (setNotificationForLockEvent g0 "x" none none none
        none).lockEventNotifications "x" = some ⟨none, none, none, none⟩
      ∧ ("a" ∈ mapKeys (setNotificationForLockEvent g0 "x" none none none
          none).lockEventNotifications)
      ∧ ∀ cb : ℕ,
          ("a", cb) ∉ postWillLockNotification g0 "p" 1
            ∧ ("a", cb) ∉ postLockDidChangeNotification g0 "p" 1
            ∧ ("a", cb) ∉ postWillShmLockNotification g0 "p" 3
            ∧ ("a", cb) ∉ postShmLockDidChangeNotification g0 "p" 3 3 := by
  have h := claim_C10 g0 "x" none none none none "a" "p" 1 3
  exact ⟨h.1, h.2.1 (by decide), h.2.2 (by decide) (by decide)⟩

end WCDB
